import Mathlib
set_option maxRecDepth 100000

/-!
A shallow embedding of the operator-schema data model and parsers of
`torchgen/model.py` (the schema grammar of the PyTorch code generator).

Modelling conventions:
* Python strings are modelled as `List Char` internally, with `String`
  wrappers at the public boundaries (`*.parse` functions take a `String`).
* Python functions that can raise (`assert`, `RuntimeError`, unpacking
  errors, ...) are modelled as `Except String` / `Option` valued functions;
  the error strings are abbreviations of the CPython messages (f-string
  interpolation of the offending values is elided).
* `@dataclass(frozen=True)` classes become structures; `__post_init__`
  validation is modelled as a boolean validity check that every
  construction site of the Python code runs (`Arguments.post_ok`,
  `FunctionSchema.post_ok`, the group checks in `NativeFunctionsGroup.mk_checked`).
* Recursion that is not structural in Python (string scanning) is given a
  fuel parameter so that every definition is structurally recursive and
  kernel-reducible; the fuel supplied by the wrappers is always sufficient.
* Regexes are translated by their match semantics on the inputs the code
  feeds them, e.g. `re.match(r"Tensor\((.+)\)(.*)", s)` becomes: `s` starts
  with `"Tensor("` and the greedy group 1 runs to the last `')'` of the rest
  and is non-empty.
-/

/-! ## List-of-characters utilities -/

/-- `isPreL p l`: `p` is a prefix of `l` (Python `str.startswith`). -/
def isPreL : List Char → List Char → Bool
  | [], _ => true
  | _ :: _, [] => false
  | p :: ps, c :: cs => p == c && isPreL ps cs

/-- `endsL p l`: `p` is a suffix of `l` (Python `str.endswith`). -/
def endsL (p l : List Char) : Bool :=
  isPreL p.reverse l.reverse

/-- Split at the first occurrence of `sep` (nonempty), returning the parts
before and after it; `none` if `sep` does not occur (Python `str.find`). -/
def splitFirst? (sep : List Char) : List Char → Option (List Char × List Char)
  | [] => none
  | c :: cs =>
    if isPreL sep (c :: cs) then some ([], (c :: cs).drop sep.length)
    else match splitFirst? sep cs with
      | none => none
      | some (pre, post) => some (c :: pre, post)

/-- Split at the last occurrence of `sep`, returning the parts before and
after it (Python `str.rsplit(sep, 1)` / greedy-regex backtracking). -/
def splitLast? (sep : List Char) : List Char → Option (List Char × List Char)
  | [] => none
  | c :: cs =>
    match splitLast? sep cs with
    | some (pre, post) => some (c :: pre, post)
    | none =>
      if isPreL sep (c :: cs) then some ([], (c :: cs).drop sep.length)
      else none

/-- Fuel-driven worker for `splitSep` (Python `str.split(sep)`). -/
def splitSepF (sep : List Char) : Nat → List Char → List Char → List (List Char)
  | 0, cs, acc => [acc.reverse ++ cs]
  | _ + 1, [], acc => [acc.reverse]
  | fuel + 1, c :: cs, acc =>
    if isPreL sep (c :: cs) then
      acc.reverse :: splitSepF sep fuel (cs.drop (sep.length - 1)) []
    else
      splitSepF sep fuel cs (c :: acc)

/-- Python `str.split(sep)` for a nonempty separator. -/
def splitSep (sep cs : List Char) : List (List Char) :=
  splitSepF sep (cs.length + 1) cs []

/-- Fuel-driven worker for `replaceAll` (Python `str.replace`). -/
def replaceAllF (pat repl : List Char) : Nat → List Char → List Char
  | 0, cs => cs
  | _ + 1, [] => []
  | fuel + 1, c :: cs =>
    if isPreL pat (c :: cs) then
      repl ++ replaceAllF pat repl fuel (cs.drop (pat.length - 1))
    else
      c :: replaceAllF pat repl fuel cs

/-- Python `str.replace(pat, repl)` for a nonempty pattern. -/
def replaceAll (pat repl cs : List Char) : List Char :=
  replaceAllF pat repl (cs.length + 1) cs

/-- `pat` occurs as a substring of `cs` (Python `pat in s`). -/
def containsSub (pat cs : List Char) : Bool :=
  (splitFirst? pat cs).isSome

/-- Digits to the number they denote (Python `int` on a digit string). -/
def digitsToNat (ds : List Char) : Nat :=
  ds.foldl (fun acc c => acc * 10 + (c.toNat - 48)) 0

/-- Join with a separator (Python `sep.join`). -/
def joinSep (sep : List Char) (parts : List (List Char)) : List Char :=
  List.intercalate sep parts

/-- Map an `Option`-valued function over a list, failing if any element
fails (used to model Python `__str__` methods that may raise). -/
def optMapList (f : α → Option β) : List α → Option (List β)
  | [] => some []
  | a :: as =>
    match f a, optMapList f as with
    | some b, some bs => some (b :: bs)
    | _, _ => none

/-- Map an `Except`-valued function over a list, short-circuiting on the
first error (used to model Python loops of fallible calls). -/
def exMapList (f : α → Except ε β) : List α → Except ε (List β)
  | [] => .ok []
  | a :: as =>
    match f a with
    | .error e => .error e
    | .ok b =>
      match exMapList f as with
      | .error e => .error e
      | .ok bs => .ok (b :: bs)

/-! ## Data model (`torchgen/model.py` dataclasses) -/

/-- Source: `BaseTy` enum. -/
inductive BaseTy where
  | Generator | ScalarType | Tensor | int | Dimname | float | str | bool
  | Layout | Device | Scalar | MemoryFormat | QScheme | Storage | Stream
  | SymInt | ConstQuantizerPtr
  deriving DecidableEq, Repr

/-- Source: `Type` with subclasses `BaseType`, `OptionalType`, `ListType`
(the name `Type` is reserved in Lean). -/
inductive Ty where
  | BaseType (name : BaseTy)
  | OptionalType (elem : Ty)
  | ListType (elem : Ty) (size : Option Nat)
  deriving DecidableEq, Repr

/-- Source: `Annotation` dataclass. -/
structure Annotation where
  alias_set : List String
  is_write : Bool
  alias_set_after : String
  deriving DecidableEq, Repr

/-- Source: `Argument` dataclass (`annotation` is shortened to `ann`). -/
structure Argument where
  name : String
  ty : Ty
  default : Option String
  ann : Option Annotation
  deriving DecidableEq, Repr

/-- Source: `Argument.is_write` property. -/
def Argument.is_write (a : Argument) : Bool :=
  match a.ann with
  | some an => an.is_write
  | none => false

/-- Source: `Return` dataclass. -/
structure Return where
  name : Option String
  ty : Ty
  ann : Option Annotation
  deriving DecidableEq, Repr

/-- Source: `Return.is_write` property. -/
def Return.is_write (r : Return) : Bool :=
  match r.ann with
  | some an => an.is_write
  | none => false

/-- Source: `SelfArgument` dataclass. -/
structure SelfArgument where
  argument : Argument
  deriving DecidableEq, Repr

/-- Source: `TensorOptionsArguments` dataclass. -/
structure TensorOptionsArguments where
  dtype : Argument
  layout : Argument
  device : Argument
  pin_memory : Argument
  deriving DecidableEq, Repr

/-- Source: `TensorOptionsArguments.all`. -/
def TensorOptionsArguments.all (t : TensorOptionsArguments) : List Argument :=
  [t.dtype, t.layout, t.device, t.pin_memory]

/-- Source: `Arguments` dataclass (the seven buckets). -/
structure Arguments where
  pre_self_positional : List Argument
  self_arg : Option SelfArgument
  post_self_positional : List Argument
  pre_tensor_options_kwarg_only : List Argument
  tensor_options : Option TensorOptionsArguments
  post_tensor_options_kwarg_only : List Argument
  out : List Argument
  deriving DecidableEq, Repr

/-- Source: `Arguments.flat_positional`. -/
def Arguments.flat_positional (a : Arguments) : List Argument :=
  a.pre_self_positional ++
    (match a.self_arg with
     | some sa => [sa.argument]
     | none => []) ++
    a.post_self_positional

/-- Source: `Arguments.flat_kwarg_only`. -/
def Arguments.flat_kwarg_only (a : Arguments) : List Argument :=
  a.pre_tensor_options_kwarg_only ++
    (match a.tensor_options with
     | some t => t.all
     | none => []) ++
    a.post_tensor_options_kwarg_only

/-- Source: `Arguments.flat_all`. -/
def Arguments.flat_all (a : Arguments) : List Argument :=
  a.flat_positional ++ a.flat_kwarg_only ++ a.out

/-- Source: `Arguments.post_self_positional_mutable`. -/
def Arguments.post_self_positional_mutable (a : Arguments) : List Argument :=
  a.post_self_positional.filter (fun x => x.is_write)

/-- Source: `Arguments.__post_init__` (modelled as a validity check run at
every construction site). -/
def Arguments.post_ok (a : Arguments) : Bool :=
  (match a.self_arg with
   | none => a.pre_self_positional.isEmpty
   | some _ => true) &&
  (match a.tensor_options with
   | none => a.post_tensor_options_kwarg_only.isEmpty
   | some _ => true) &&
  (a.pre_self_positional.filter (fun x => x.is_write)).isEmpty

/-- Source: `BaseOperatorName` dataclass. -/
structure BaseOperatorName where
  base : String
  inplace : Bool
  dunder_method : Bool
  deriving DecidableEq, Repr

/-- Source: `OperatorName` dataclass. -/
structure OperatorName where
  name : BaseOperatorName
  overload_name : String
  deriving DecidableEq, Repr

/-- Source: `FunctionSchema` dataclass. -/
structure FunctionSchema where
  name : OperatorName
  arguments : Arguments
  returns : List Return
  deriving DecidableEq, Repr

/-- Source: `SchemaKind` enum. -/
inductive SchemaKind where
  | functional | inplace | out | mutable
  deriving DecidableEq, Repr

/-! ## Constants -/

def commaSpace : List Char := ", ".data

def tensorChars : List Char := "Tensor".data

def tensorParen : List Char := "Tensor(".data

def arrowSpaced : List Char := " -> ".data

def arrowStarChars : List Char := " -> *".data

def closeArrow : List Char := ") -> ".data

def outSuffix : List Char := "_out".data

def pipeChars : List Char := "|".data

def selfStr : String := "self"

def dtypeStr : String := "dtype"

def layoutStr : String := "layout"

def deviceStr : String := "device"

def pinMemoryStr : String := "pin_memory"

def functionalChars : List Char := "functional".data

/-! ## Printers (`__str__` methods); printers that can raise an
`AssertionError` in Python are `Option`-valued -/

/-- Source: the `BaseTy` enum member names. -/
def baseTyName : BaseTy → String
  | .Generator => "Generator"
  | .ScalarType => "ScalarType"
  | .Tensor => "Tensor"
  | .int => "int"
  | .Dimname => "Dimname"
  | .float => "float"
  | .str => "str"
  | .bool => "bool"
  | .Layout => "Layout"
  | .Device => "Device"
  | .Scalar => "Scalar"
  | .MemoryFormat => "MemoryFormat"
  | .QScheme => "QScheme"
  | .Storage => "Storage"
  | .Stream => "Stream"
  | .SymInt => "SymInt"
  | .ConstQuantizerPtr => "ConstQuantizerPtr"

/-- Source: `BaseType.__str__`, `OptionalType.__str__`, `ListType.__str__`.
Note `ListType.__str__` prints an empty size for `size=0` (Python
truthiness of `self.size`). -/
def typePrintL : Ty → List Char
  | .BaseType b => (baseTyName b).data
  | .OptionalType e => typePrintL e ++ ['?']
  | .ListType e size =>
    typePrintL e ++ ['['] ++
      (match size with
       | some n => if n = 0 then [] else (Nat.repr n).data
       | none => []) ++ [']']

/-- Source: `Annotation.__str__`. -/
def annPrintL (an : Annotation) : List Char :=
  let aset := joinSep pipeChars (an.alias_set.map String.data)
  let aset :=
    if an.alias_set_after.isEmpty then aset
    else aset ++ arrowSpaced ++ an.alias_set_after.data
  aset ++ (if an.is_write then ['!'] else [])

/-- The annotated type string of `Argument.__str__` / `Return.__str__`:
`none` models the `assert type in ["Tensor", "Tensor?", "Tensor[]"]`
failing. -/
def typeWithAnn (ty : Ty) (an? : Option Annotation) : Option (List Char) :=
  let ts := typePrintL ty
  match an? with
  | none => some ts
  | some an =>
    if ts = tensorChars ∨ ts = tensorChars ++ ['?'] ∨ ts = tensorChars ++ ['[', ']'] then
      some (replaceAll tensorChars (tensorParen ++ annPrintL an ++ [')']) ts)
    else none

/-- Source: `Argument.__str__` (`Argument.name` is never `None` in the
Python code, so the `if self.name is None` branch is dropped). -/
def argPrintL (a : Argument) : Option (List Char) :=
  match typeWithAnn a.ty a.ann with
  | none => none
  | some t =>
    some (t ++ [' '] ++ a.name.data ++
      (match a.default with
       | some d => if d.isEmpty then [] else '=' :: d.data
       | none => []))

/-- Source: `Return.__str__`. -/
def retPrintL (r : Return) : Option (List Char) :=
  match typeWithAnn r.ty r.ann with
  | none => none
  | some t =>
    match r.name with
    | none => some t
    | some n => some (t ++ [' '] ++ n.data)

/-- Source: `Arguments.__str__`. -/
def argsPrintL (a : Arguments) : Option (List Char) :=
  match optMapList argPrintL a.flat_positional,
        optMapList argPrintL a.flat_kwarg_only,
        optMapList argPrintL a.out with
  | some ps, some ks, some os =>
    some (joinSep commaSpace
      (ps ++ (if a.flat_kwarg_only.isEmpty && a.out.isEmpty then [] else [['*']]) ++ ks ++ os))
  | _, _, _ => none

/-- Source: `BaseOperatorName.__str__`. -/
def baseOpPrintL (b : BaseOperatorName) : List Char :=
  if b.dunder_method then
    ['_', '_'] ++ (if b.inplace then ['i'] else []) ++ b.base.data ++ ['_', '_']
  else
    b.base.data ++ (if b.inplace then ['_'] else [])

/-- Source: `OperatorName.__str__`. -/
def opNamePrintL (n : OperatorName) : List Char :=
  if n.overload_name.isEmpty then baseOpPrintL n.name
  else baseOpPrintL n.name ++ ['.'] ++ n.overload_name.data

/-- Source: `FunctionSchema.__str__` (a single return is printed without
parentheses). -/
def fsPrintL (s : FunctionSchema) : Option (List Char) :=
  match argsPrintL s.arguments with
  | none => none
  | some argsStr =>
    match
      (match s.returns with
       | [r] => retPrintL r
       | rs =>
         match optMapList retPrintL rs with
         | some parts => some (['('] ++ joinSep commaSpace parts ++ [')'])
         | none => none) with
    | none => none
    | some retStrs =>
      some (opNamePrintL s.name ++ ['('] ++ argsStr ++ [')'] ++ arrowSpaced ++ retStrs)

/-- String-level printer for `Ty` (`Type.__str__`). -/
def typeStr (t : Ty) : String := String.mk (typePrintL t)

/-- String-level printer for `Annotation.__str__`. -/
def annStr (an : Annotation) : String := String.mk (annPrintL an)

/-- String-level printer for `Argument.__str__`. -/
def argStr (a : Argument) : Option String := (argPrintL a).map String.mk

/-- String-level printer for `Return.__str__`. -/
def retStr (r : Return) : Option String := (retPrintL r).map String.mk

/-- String-level printer for `OperatorName.__str__`. -/
def opNameStr (n : OperatorName) : String := String.mk (opNamePrintL n)

/-- String-level printer for `FunctionSchema.__str__`. -/
def fsStr (s : FunctionSchema) : Option String := (fsPrintL s).map String.mk

/-! ## Error messages (abbreviated; f-string interpolation elided) -/

def errFuel : String := "internal: out of fuel"

def errAnn : String := "unrecognized alias annotation"

def errAnnRT : String := "annotation parse round trip failed"

def errUnrecognizedType : String := "unrecognized type"

def errTypeRT : String := "type parse round trip failed"

def errArgSplit : String := "not enough values to unpack"

def errArgUnpack : String := "too many values to unpack"

def errAliasForm : String := "unrecognized alias analysis form with Tensor"

def errArgRT : String := "argument parse round trip failed"

def errRetRT : String := "return parse round trip failed"

def errEmptyOp : String := "empty operator name"

def errOutSuffix : String := "_out suffix is reserved and not permitted for operator names"

def errDunderI : String := "dunder method base name may not start with i"

def errBaseOpRT : String := "base operator name parse round trip failed"

def errOpNameRT : String := "operator name parse round trip failed"

def errStar : String := "invalid syntax: kwarg-only specifier * can only occur once"

def errOutNonMutable : String := "out bucket argument without write annotation"

def errSecondQuad : String := "tensor options matched twice"

def errArgsPost : String := "Arguments.__post_init__ assertion failed"

def errEmptyReturns : String := "string index out of range"

def errDecl : String := "Invalid function schema"

def errFsRT : String := "function schema parse round trip failed"

def errFsPost : String := "FunctionSchema.__post_init__ assertion failed"

/-! ## Parsers -/

/-- The `assert str(r) == input` round-trip guard that ends every grammar
`parse` method (`r = ...; assert str(r) == s; return r`). -/
def rtCheck (cs : List Char) (pr : α → List Char) (err : String) :
    Except String α → Except String α
  | .error e => .error e
  | .ok r => if pr r = cs then .ok r else .error err

/-- The same round-trip guard for printers that can themselves raise
(so the guard fails both on a raising `__str__` and on a mismatch). -/
def rtCheckO (cs : List Char) (pr : α → Option (List Char)) (err : String) :
    Except String α → Except String α
  | .error e => .error e
  | .ok r => if pr r = some cs then .ok r else .error err

/-- The regex `^([a-z])(!?)(!?)$` of `Annotation.parse`: returns the
alias-set character and whether the first `!` group is present. -/
def annMatch : List Char → Option (Char × Bool)
  | [c] => if 'a' ≤ c ∧ c ≤ 'z' then some (c, false) else none
  | [c, '!'] => if 'a' ≤ c ∧ c ≤ 'z' then some (c, true) else none
  | [c, '!', '!'] => if 'a' ≤ c ∧ c ≤ 'z' then some (c, true) else none
  | _ => none

/-- Source: `Annotation.parse` (the `" -> *"` marker is cut out at its
first occurrence before the single-character match). -/
def annParseL (cs : List Char) : Except String Annotation :=
  rtCheck cs annPrintL errAnnRT
    (let (after_set, target) :=
      match splitFirst? arrowStarChars cs with
      | some (pre, post) => ("*", pre ++ post)
      | none => ("", cs)
    match annMatch target with
    | none => .error errAnn
    | some (c, w) => .ok ⟨[String.mk [c]], w, after_set⟩)

/-- Source: `Annotation.parse` (string boundary). -/
def Annotation.parse (s : String) : Except String Annotation :=
  annParseL s.data

/-- Source: the `BaseTy[t]` enum lookup in `Type._parse`. -/
def baseTyOf? (s : String) : Option BaseTy :=
  if s = "Generator" then some .Generator
  else if s = "ScalarType" then some .ScalarType
  else if s = "Tensor" then some .Tensor
  else if s = "int" then some .int
  else if s = "Dimname" then some .Dimname
  else if s = "float" then some .float
  else if s = "str" then some .str
  else if s = "bool" then some .bool
  else if s = "Layout" then some .Layout
  else if s = "Device" then some .Device
  else if s = "Scalar" then some .Scalar
  else if s = "MemoryFormat" then some .MemoryFormat
  else if s = "QScheme" then some .QScheme
  else if s = "Storage" then some .Storage
  else if s = "Stream" then some .Stream
  else if s = "SymInt" then some .SymInt
  else if s = "ConstQuantizerPtr" then some .ConstQuantizerPtr
  else none

/-- The regex `^(.+)\[([0-9]+)?\]$` of `Type._parse`: the greedy group 1
runs to the rightmost `'['` whose bracket content is all digits. -/
def listShape? (cs : List Char) : Option (List Char × Option Nat) :=
  match cs.reverse with
  | ']' :: revRest =>
    let ds := revRest.takeWhile Char.isDigit
    (match revRest.drop ds.length with
     | '[' :: innerRev =>
       if innerRev.isEmpty then none
       else some (innerRev.reverse,
                  if ds.isEmpty then none else some (digitsToNat ds.reverse))
     | _ => none)
  | _ => none

/-- Source: `Type.parse` / `Type._parse` combined (`_parse` recurses
through the checked `parse`, and `parse` asserts `str(r) == t`); the fuel
makes the recursion structural. -/
def typeParseF : Nat → List Char → Except String Ty
  | 0, _ => .error errFuel
  | fuel + 1, cs =>
    rtCheck cs typePrintL errTypeRT
      (if 2 ≤ cs.length ∧ cs.getLast? = some '?' then
        match typeParseF fuel cs.dropLast with
        | .ok e => .ok (.OptionalType e)
        | .error e => .error e
      else
        match listShape? cs with
        | some (inner, size) =>
          (match typeParseF fuel inner with
           | .ok e => .ok (.ListType e size)
           | .error e => .error e)
        | none =>
          match baseTyOf? (String.mk cs) with
          | some b => .ok (.BaseType b)
          | none => .error errUnrecognizedType)

/-- `Type.parse` on character lists, with sufficient fuel. -/
def typeParseTop (cs : List Char) : Except String Ty :=
  typeParseF (2 * cs.length + 4) cs

/-- Source: `Type.parse` (string boundary). -/
def Ty.parse (s : String) : Except String Ty :=
  typeParseTop s.data

/-- The regex `re.match(r"Tensor\((.+)\)(.*)", s)` of `Argument.parse` /
`Return.parse`: a `"Tensor("` prefix, group 1 (nonempty) running to the
last `')'`, group 2 the rest. -/
def tensorAnnMatch (cs : List Char) : Option (List Char × List Char) :=
  if isPreL tensorParen cs then
    match splitLast? [')'] (cs.drop 7) with
    | some (g1, g2) => if g1.isEmpty then none else some (g1, g2)
    | none => none
  else none

/-- Source: `Argument.parse`. -/
def argParseL (cs : List Char) : Except String Argument :=
  rtCheckO cs argPrintL errArgRT
    (match splitLast? [' '] cs with
    | none => .error errArgSplit
    | some (type_and_annot, name_and_default) =>
      let nd : Except String (List Char × Option (List Char)) :=
        match splitFirst? ['='] name_and_default with
        | none => .ok (name_and_default, none)
        | some (n, d) =>
          if d.contains '=' then .error errArgUnpack else .ok (n, some d)
      match nd with
      | .error e => .error e
      | .ok (nm, dflt) =>
        let ta : Except String (List Char × Option Annotation) :=
          match tensorAnnMatch type_and_annot with
          | none => .ok (type_and_annot, none)
          | some (g1, g2) =>
            if g2 = [] ∨ g2 = ['?'] ∨ g2 = ['[', ']'] then
              match annParseL g1 with
              | .ok an => .ok (tensorChars ++ g2, some an)
              | .error e => .error e
            else .error errAliasForm
        match ta with
        | .error e => .error e
        | .ok (type_s, an?) =>
          match typeParseTop type_s with
          | .error e => .error e
          | .ok ty => .ok ⟨String.mk nm, ty, dflt.map String.mk, an?⟩)

/-- Source: `Argument.parse` (string boundary). -/
def Argument.parse (s : String) : Except String Argument :=
  argParseL s.data

/-- Source: `Return.parse`. -/
def retParseL (cs : List Char) : Except String Return :=
  rtCheckO cs retPrintL errRetRT
    (let (type_and_annot, nm?) :=
      match splitLast? [' '] cs with
      | some (t, n) => (t, some n)
      | none => (cs, none)
    let ta : Except String (List Char × Option Annotation) :=
      match tensorAnnMatch type_and_annot with
      | none => .ok (type_and_annot, none)
      | some (g1, g2) =>
        if g2 = [] ∨ g2 = ['?'] ∨ g2 = ['[', ']'] then
          match annParseL g1 with
          | .ok an => .ok (tensorChars ++ g2, some an)
          | .error e => .error e
        else .error errAliasForm
    match ta with
    | .error e => .error e
    | .ok (type_s, an?) =>
      match typeParseTop type_s with
      | .error e => .error e
      | .ok ty => .ok ⟨nm?.map String.mk, ty, an?⟩)

/-- Source: `Return.parse` (string boundary). -/
def Return.parse (s : String) : Except String Return :=
  retParseL s.data

/-- Source: `AUGMENTED_ASSIGNMENT_NAMES`. -/
def AUGMENTED_ASSIGNMENT_NAMES : List String :=
  ["add", "sub", "mul", "div", "mod", "pow", "lshift", "rshift", "and", "xor", "or"]

/-- The regex `^__([^_]+)__$` of `BaseOperatorName.parse`: returns the
inner name when the dunder form matches. -/
def dunderInner? (cs : List Char) : Option (List Char) :=
  match cs with
  | c1 :: c2 :: rest =>
    if c1 = '_' ∧ c2 = '_' then
      match rest.reverse with
      | d1 :: d2 :: midRev =>
        if d1 = '_' ∧ d2 = '_' then
          (if midRev.reverse.isEmpty ∨ midRev.reverse.contains '_' then none
           else some midRev.reverse)
        else none
      | _ => none
    else none
  | _ => none

/-- Source: `BaseOperatorName.parse`. -/
def baseOpParseL (op : List Char) : Except String BaseOperatorName :=
  rtCheck op baseOpPrintL errBaseOpRT
    (if op.isEmpty then .error errEmptyOp
    else if endsL outSuffix op then .error errOutSuffix
    else
      match dunderInner? op with
      | some base =>
        if AUGMENTED_ASSIGNMENT_NAMES.any (fun n => base == 'i' :: n.data) then
          .ok ⟨String.mk (base.drop 1), true, true⟩
        else if base.head? = some 'i' then .error errDunderI
        else .ok ⟨String.mk base, false, true⟩
      | none =>
        if op.getLast? = some '_' then .ok ⟨String.mk op.dropLast, true, false⟩
        else .ok ⟨String.mk op, false, false⟩)

/-- Source: `BaseOperatorName.parse` (string boundary). -/
def BaseOperatorName.parse (s : String) : Except String BaseOperatorName :=
  baseOpParseL s.data

/-- Source: `OperatorName.parse` (split at the first `'.'`). -/
def opNameParseL (cs : List Char) : Except String OperatorName :=
  rtCheck cs opNamePrintL errOpNameRT
    (let (nm, over) :=
      match splitFirst? ['.'] cs with
      | some (n, o) => (n, o)
      | none => (cs, [])
    match baseOpParseL nm with
    | .error e => .error e
    | .ok b => .ok ⟨b, String.mk over⟩)

/-- Source: `OperatorName.parse` (string boundary). -/
def OperatorName.parse (s : String) : Except String OperatorName :=
  opNameParseL s.data

/-! ## Arguments classifier (`Arguments._preparse` / `Arguments.parse`) -/

/-- The identity of the accumulator list `arguments_acc` in
`Arguments._preparse`. -/
inductive AccTag where
  | positional | kwarg_only | out
  deriving DecidableEq, Repr

/-- The loop state of `Arguments._preparse`: the three flat lists plus the
current accumulator. -/
structure PreState where
  positional : List Argument
  kwarg_only : List Argument
  out : List Argument
  tag : AccTag
  deriving DecidableEq, Repr

/-- Initial `_preparse` state (`arguments_acc = positional`). -/
def preInit : PreState :=
  ⟨[], [], [], .positional⟩

/-- One iteration of the `for arg in args.split(", ")` loop of
`Arguments._preparse`. -/
def preStep (st : PreState) (tok : List Char) : Except String PreState :=
  if tok.isEmpty then .ok st
  else if tok = ['*'] then
    (if st.tag = .positional then .ok { st with tag := .kwarg_only } else .error errStar)
  else
    match argParseL tok with
    | .error e => .error e
    | .ok parg =>
      if parg.is_write then
        match st.tag with
        | .positional => .ok { st with positional := st.positional ++ [parg] }
        | .kwarg_only => .ok { st with tag := .out, out := st.out ++ [parg] }
        | .out => .ok { st with out := st.out ++ [parg] }
      else
        match st.tag with
        | .out => .error errOutNonMutable
        | .positional => .ok { st with positional := st.positional ++ [parg] }
        | .kwarg_only => .ok { st with kwarg_only := st.kwarg_only ++ [parg] }

/-- The whole `_preparse` loop. -/
def preGo : PreState → List (List Char) → Except String PreState
  | st, [] => .ok st
  | st, t :: ts =>
    match preStep st t with
    | .error e => .error e
    | .ok st1 => preGo st1 ts

/-- Source: `Arguments._preparse`. -/
def preparse (cs : List Char) : Except String PreState :=
  preGo preInit (splitSep commaSpace cs)

/-- The self-splitting of `Arguments.parse`: positional arguments are
split at the first argument literally named `self`; when `self` is absent
everything is post-self. -/
def splitSelf : List Argument → List Argument × Option SelfArgument × List Argument
  | [] => ([], none, [])
  | a :: rest =>
    if a.name = selfStr then ([], some ⟨a⟩, rest)
    else
      match splitSelf rest with
      | (pre, some sa, post) => (a :: pre, some sa, post)
      | (_, none, _) => ([], none, a :: rest)

/-- One predicate of the `predicates` list in `Arguments.parse`: name and
type (the type or its optional form) must match. -/
def matchesNT (nm : String) (t : Ty) (a : Argument) : Bool :=
  a.name == nm && (a.ty == t || a.ty == Ty.OptionalType t)

/-- All four `predicates` of `Arguments.parse` hold for four consecutive
arguments. -/
def quadOk (a b c d : Argument) : Bool :=
  matchesNT dtypeStr (.BaseType .ScalarType) a &&
  matchesNT layoutStr (.BaseType .Layout) b &&
  matchesNT deviceStr (.BaseType .Device) c &&
  matchesNT pinMemoryStr (.BaseType .bool) d

/-- Some window of four consecutive arguments satisfies `quadOk`. -/
def anyQuad : List Argument → Bool
  | a :: b :: c :: d :: rest => quadOk a b c d || anyQuad (b :: c :: d :: rest)
  | _ => false

/-- The tensor-options grouping loop of `Arguments.parse`: scan for the
first window of four consecutive kwarg-only arguments matching the
dtype/layout/device/pin_memory pattern; everything before goes to the
pre-options bucket, everything after to the post-options bucket; a second
matching window fails the `assert kwarg_only_acc is
pre_tensor_options_kwarg_only`. -/
def scanQuad : List Argument →
    Except String (List Argument × Option TensorOptionsArguments × List Argument)
  | a :: b :: c :: d :: rest =>
    if quadOk a b c d then
      if anyQuad rest then .error errSecondQuad
      else .ok ([], some ⟨a, b, c, d⟩, rest)
    else
      match scanQuad (b :: c :: d :: rest) with
      | .error e => .error e
      | .ok (pre, topt, post) => .ok (a :: pre, topt, post)
  | l => .ok (l, none, [])

/-- Source: `Arguments.parse` (both phases, ending in the
`__post_init__` check of the constructed record). -/
def Arguments.parseL (cs : List Char) : Except String Arguments :=
  match preparse cs with
  | .error e => .error e
  | .ok st =>
    let (pre_self, self?, post_self) := splitSelf st.positional
    match scanQuad st.kwarg_only with
    | .error e => .error e
    | .ok (preT, topt, postT) =>
      let r : Arguments := ⟨pre_self, self?, post_self, preT, topt, postT, st.out⟩
      if r.post_ok then .ok r else .error errArgsPost

/-- Source: `Arguments.parse` (string boundary). -/
def Arguments.parse (s : String) : Except String Arguments :=
  Arguments.parseL s.data

/-! ## Function schema -/

/-- Source: `parse_returns` (an empty declaration raises `IndexError` at
`return_decl[0]`). -/
def parse_returnsL (cs : List Char) : Except String (List Return) :=
  if cs = ['(', ')'] then .ok []
  else if cs.isEmpty then .error errEmptyReturns
  else
    let inner :=
      if cs.head? = some '(' ∧ cs.getLast? = some ')' then (cs.drop 1).dropLast else cs
    exMapList retParseL (splitSep commaSpace inner)

/-- Source: `FunctionSchema.kind`; `none` models the
`assert not (is_out and is_inplace)` failing. -/
def FunctionSchema.kind (s : FunctionSchema) : Option SchemaKind :=
  let is_out := !s.arguments.out.isEmpty
  let is_inplace := s.name.name.inplace
  let is_mutable := s.arguments.post_self_positional.any (fun a => a.is_write)
  if is_out && is_inplace then none
  else if is_inplace then some .inplace
  else if is_out then some .out
  else if is_mutable then some .mutable
  else some .functional

/-- Source: the `mutable_returns` list of `FunctionSchema.__post_init__`. -/
def FunctionSchema.mutable_returns (s : FunctionSchema) : List Return :=
  s.returns.filter (fun r => r.is_write)

/-- Source: the `immutable_returns` list of `FunctionSchema.__post_init__`. -/
def FunctionSchema.immutable_returns (s : FunctionSchema) : List Return :=
  s.returns.filter (fun r => !r.is_write)

/-- Source: the `out_and_self` list of `FunctionSchema.__post_init__`. -/
def FunctionSchema.out_and_self (s : FunctionSchema) : List Argument :=
  s.arguments.out ++ s.arguments.flat_positional.filter (fun a => a.name == selfStr)

/-- Source: `FunctionSchema.is_functional_fn`. -/
def FunctionSchema.is_functional_fn (s : FunctionSchema) : Bool :=
  containsSub functionalChars s.name.overload_name.data

/-- Source: `FunctionSchema.__post_init__`, as a validity check run at
every construction site; conjuncts appear in source order. -/
def FunctionSchema.post_ok (s : FunctionSchema) : Bool :=
  ((s.arguments.out.zip s.returns).all (fun p => p.1.ann == p.2.ann)) &&
  (s.arguments.post_self_positional_mutable.all
    (fun a => !(s.returns.any (fun r => a.ann == r.ann)))) &&
  (s.mutable_returns.isEmpty || s.immutable_returns.isEmpty) &&
  (s.mutable_returns.all (fun ret => s.out_and_self.any (fun arg => ret.ann == arg.ann))) &&
  (if s.arguments.out.isEmpty then true
   else if s.arguments.out.any (fun a => !(a.ty == Ty.BaseType .Tensor)) then
     s.returns.isEmpty
   else s.returns.length == s.arguments.out.length) &&
  (if s.name.name.inplace then
     match s.arguments.self_arg with
     | none => false
     | some sa =>
       sa.argument.is_write &&
       (if sa.argument.ty == Ty.BaseType .Tensor then
          match s.returns with
          | [r] => r.ann == sa.argument.ann
          | _ => false
        else s.returns.isEmpty)
   else true) &&
  (match s.arguments.tensor_options with
   | some _ => s.kind == some .functional
   | none => true) &&
  (if s.is_functional_fn then s.kind == some .functional else true)

/-- Source: `FunctionSchema.parse`. The `decl_re` regex
`(?P<name>[^\(]+)\((?P<args>.*)\) -> (?P<returns>.*)` with
`assert len(decls) == 1` is modelled as: the name runs to the first `'('`
and must be nonempty, the greedy `args` group runs to the last
`") -> "`, and (since `.` does not match a newline) the part after the
first `'('` may not contain a newline. -/
def FunctionSchema.parse (s : String) : Except String FunctionSchema :=
  rtCheckO s.data fsPrintL errFsRT
    (match splitFirst? ['('] s.data with
    | none => .error errDecl
    | some (namePart, rest) =>
      if namePart.isEmpty then .error errDecl
      else if rest.contains '\n' then .error errDecl
      else
        match splitLast? closeArrow rest with
        | none => .error errDecl
        | some (argsPart, retPart) =>
          match opNameParseL namePart with
          | .error e => .error e
          | .ok nm =>
            match Arguments.parseL argsPart with
            | .error e => .error e
            | .ok args =>
              match parse_returnsL retPart with
              | .error e => .error e
              | .ok rets =>
                let r : FunctionSchema := ⟨nm, args, rets⟩
                if r.post_ok then .ok r else .error errFsPost)

/-! ## `signature()` canonicalization -/

def copySuffix : List Char := "_copy".data

def arangeStartStep : String := "arange.start_step"

def bernoulliP : String := "bernoulli.p"

def scalarStepPat : List Char := "Scalar step".data

def scalarStepRepl : List Char := "Scalar step=1".data

def floatPPat : List Char := "float p".data

def floatPRepl : List Char := "float p=0.5".data

def errArgsStr : String := "Arguments.__str__ assertion failed"

/-- Source: the `strip_arg_annotation` closure of `Arguments.signature`. -/
def stripArgAnn (strip_default : Bool) (a : Argument) : Argument :=
  ⟨a.name, a.ty, if strip_default then none else a.default, none⟩

/-- Source: the record built by `Arguments.signature`: annotations
stripped, post-tensor-options kwargs folded into the pre bucket, tensor
options and out arguments dropped. -/
def Arguments.sigCore (strip_default : Bool) (a : Arguments) : Arguments :=
  ⟨a.pre_self_positional.map (stripArgAnn strip_default),
   (match a.self_arg with
    | some sa => some ⟨stripArgAnn strip_default sa.argument⟩
    | none => none),
   a.post_self_positional.map (stripArgAnn strip_default),
   a.pre_tensor_options_kwarg_only.map (stripArgAnn strip_default) ++
     a.post_tensor_options_kwarg_only.map (stripArgAnn strip_default),
   none, [], []⟩

/-- Source: `Arguments.signature` (constructing the result runs
`Arguments.__post_init__`). -/
def Arguments.sigE (strip_default : Bool) (a : Arguments) : Except String Arguments :=
  let r := a.sigCore strip_default
  if r.post_ok then .ok r else .error errArgsPost

/-- Source: the `strip_ret_annotation` closure of
`FunctionSchema.signature`. -/
def stripRetAnn (keep_return_names : Bool) (r : Return) : Return :=
  ⟨if keep_return_names then r.name else none, r.ty, none⟩

/-- Source: the `returns_from_mutable_inputs` tuple of
`FunctionSchema.signature`: in order self, out arguments, post-self
positional arguments that are write-annotated and not already returned. -/
def returnsFromMutableInputs (keep_return_names : Bool) (s : FunctionSchema) : List Return :=
  (((match s.arguments.self_arg with
     | some sa => [sa.argument]
     | none => []) ++ s.arguments.out ++ s.arguments.post_self_positional).filter
    (fun a => a.is_write && !(s.returns.any (fun r => a.ann == r.ann)))).map
    (fun a => ⟨if keep_return_names then some (a.name ++ "_out") else none, a.ty, none⟩)

/-- Source: the name rebuilt by `FunctionSchema.signature`: overload
dropped, inplace cleared, optionally `_copy` stripped from the base. -/
def sigOpName (strip_view_copy_name : Bool) (s : FunctionSchema) : OperatorName :=
  let b := s.name.name.base
  let b :=
    if strip_view_copy_name && endsL copySuffix b.data then
      String.mk (replaceAll copySuffix [] b.data)
    else b
  ⟨⟨b, false, s.name.name.dunder_method⟩, ""⟩

/-- The result record of `FunctionSchema.signature` before the two legacy
fixed-string reparses. -/
def FunctionSchema.sigCore
    (strip_default strip_view_copy_name keep_return_names : Bool)
    (s : FunctionSchema) : FunctionSchema :=
  ⟨sigOpName strip_view_copy_name s,
   s.arguments.sigCore strip_default,
   s.returns.map (stripRetAnn keep_return_names) ++
     returnsFromMutableInputs keep_return_names s⟩

/-- Source: `FunctionSchema.signature`: canonicalize the arguments, apply
the two legacy string-level reparses (`Note [arange.start_step schema]`,
`Note [bernoulli.p schema]`), then build the result (running both
`__post_init__` checks). -/
def FunctionSchema.signatureE
    (strip_default strip_view_copy_name keep_return_names : Bool)
    (s : FunctionSchema) : Except String FunctionSchema :=
  match s.arguments.sigE strip_default with
  | .error e => .error e
  | .ok args0 =>
    let step1 : Except String Arguments :=
      if opNameStr s.name = arangeStartStep then
        match argsPrintL args0 with
        | none => .error errArgsStr
        | some p => Arguments.parseL (replaceAll scalarStepPat scalarStepRepl p)
      else .ok args0
    match step1 with
    | .error e => .error e
    | .ok args1 =>
      let step2 : Except String Arguments :=
        if opNameStr s.name = bernoulliP then
          match argsPrintL args1 with
          | none => .error errArgsStr
          | some p => Arguments.parseL (replaceAll floatPPat floatPRepl p)
        else .ok args1
      match step2 with
      | .error e => .error e
      | .ok args2 =>
        let r : FunctionSchema :=
          ⟨sigOpName strip_view_copy_name s, args2,
           s.returns.map (stripRetAnn keep_return_names) ++
             returnsFromMutableInputs keep_return_names s⟩
        if r.post_ok then .ok r else .error errFsPost

/-- Source: `FunctionSchema.signature` at its default keyword arguments
(`strip_default=False`, `strip_view_copy_name=False`,
`keep_return_names=False`). -/
def FunctionSchema.signature (s : FunctionSchema) : Except String FunctionSchema :=
  s.signatureE false false false

/-! ## Function groups (`NativeFunctionsGroup`) -/

def generatedTag : String := "generated"

def commaSpaceStr : String := ", "

def errSigMismatch : String :=
  "NativeFunctionsGroup constructed from two NativeFunctions that don't have matching signatures"

def errGroupKind : String := "group member kind assertion failed"

def errStructured : String := "structured group constraint failed"

def errAutogen : String := "autogen reconciliation failed"

def errEmptyDict : String := "assert d failed: empty mapping"

def errNoFunctional : String := "assert functional is not None failed"

/-- The fields of the Python `NativeFunction` consulted by
`NativeFunctionsGroup.__post_init__` (the full class has many more fields,
none of which the group checks read). -/
structure NativeFunction where
  func : FunctionSchema
  structured : Bool
  structured_delegate : Option OperatorName
  has_composite_implicit_autograd_kernel : Bool
  tags : List String
  autogen : List OperatorName
  deriving DecidableEq, Repr

/-- Source: `NativeFunctionsGroup` dataclass. -/
structure NativeFunctionsGroup where
  functional : NativeFunction
  inplace : Option NativeFunction
  mutable : Option NativeFunction
  out : NativeFunction
  deriving DecidableEq, Repr

/-- Source: `NativeFunctionsGroup.functions` (yield order: functional,
out, inplace, mutable). -/
def functionsList (functional : NativeFunction) (inplace mutable : Option NativeFunction)
    (out : NativeFunction) : List NativeFunction :=
  [functional, out] ++
    (match inplace with
     | some nf => [nf]
     | none => []) ++
    (match mutable with
     | some nf => [nf]
     | none => [])

/-- The last element of `functions()`: the Python loop variable `f` leaks
out of `for f in self.functions()` and is later read by the autogen
reconciliation (`expected_generated_fns = f.autogen`). -/
def lastFunction (inplace mutable : Option NativeFunction)
    (out : NativeFunction) : NativeFunction :=
  match mutable with
  | some nf => nf
  | none =>
    match inplace with
    | some nf => nf
    | none => out

/-- One signature comparison of the `for f in self.functions()` loop of
`NativeFunctionsGroup.__post_init__` (it recomputes `f.func.signature()`
and raises on mismatch). -/
def sigMatches (test : FunctionSchema) (f : NativeFunction) : Except String Unit :=
  match f.func.signature with
  | .error e => .error e
  | .ok s => if s = test then .ok () else .error errSigMismatch

/-- The signature comparison for an optional group member (absent members
are skipped by the loop). -/
def sigMatchesOpt (test : FunctionSchema) : Option NativeFunction → Except String Unit
  | some nf => sigMatches test nf
  | none => .ok ()

/-- The `test_sig` computation plus comparison loop of
`NativeFunctionsGroup.__post_init__`, over `functions()` in yield order. -/
def groupSigOk (functional : NativeFunction) (inplace mutable : Option NativeFunction)
    (out : NativeFunction) : Except String FunctionSchema :=
  match functional.func.signature with
  | .error e => .error e
  | .ok test =>
    match sigMatches test functional with
    | .error e => .error e
    | .ok _ =>
      match sigMatches test out with
      | .error e => .error e
      | .ok _ =>
        match sigMatchesOpt test inplace with
        | .error e => .error e
        | .ok _ =>
          match sigMatchesOpt test mutable with
          | .error e => .error e
          | .ok _ => .ok test

/-- Source: `NativeFunctionsGroup.__post_init__`, modelled as a checked
constructor: signature loop, per-kind `kind()` assertions, structured
constraints, autogen reconciliation. -/
def NativeFunctionsGroup.mk_checked (functional : NativeFunction)
    (inplace mutable : Option NativeFunction) (out : NativeFunction) :
    Except String NativeFunctionsGroup :=
  match groupSigOk functional inplace mutable out with
  | .error e => .error e
  | .ok _ =>
    if !(functional.func.kind == some SchemaKind.functional) then .error errGroupKind
    else if !(out.func.kind == some SchemaKind.out) then .error errGroupKind
    else if !(match inplace with
              | some nf => nf.func.kind == some SchemaKind.inplace
              | none => true) then .error errGroupKind
    else if !(match mutable with
              | some nf => nf.func.kind == some SchemaKind.mutable
              | none => true) then .error errGroupKind
    else if out.structured && out.has_composite_implicit_autograd_kernel then
      .error errStructured
    else if out.structured && !(functional.structured_delegate == some out.func.name) then
      .error errStructured
    else if out.structured && !(match inplace with
              | some nf => nf.structured_delegate == some out.func.name
              | none => true) then
      .error errStructured
    else
      let generated_fns :=
        ((functionsList functional inplace mutable out).filter
          (fun f => f.tags.contains generatedTag)).map (fun f => opNameStr f.func.name)
      let expected := (lastFunction inplace mutable out).autogen
      if expected.isEmpty && !generated_fns.isEmpty then .error errAutogen
      else if !(String.intercalate commaSpaceStr (expected.map opNameStr) ==
                String.intercalate commaSpaceStr generated_fns) then .error errAutogen
      else .ok ⟨functional, inplace, mutable, out⟩

/-- Source: `NativeFunctionsGroup.from_dict` (the `Dict[SchemaKind,
NativeFunction]` is given as one optional member per kind). -/
def NativeFunctionsGroup.from_dict
    (functional inplace mutable out : Option NativeFunction) :
    Except String (Option NativeFunctionsGroup) :=
  let present := [functional.isSome, inplace.isSome, mutable.isSome, out.isSome].count true
  if present = 0 then .error errEmptyDict
  else if present = 1 then .ok none
  else
    match functional with
    | none => .error errNoFunctional
    | some fn =>
      match out with
      | none => .ok none
      | some o =>
        match NativeFunctionsGroup.mk_checked fn inplace mutable o with
        | .error e => .error e
        | .ok g => .ok (some g)

/-! ## Concrete example values (used by witnesses and counterexamples) -/

/-- Example 1 of the spec: the functional `add` overload. -/
def ex1Str : String := "add.Tensor(Tensor self, Tensor other, *, Scalar alpha=1) -> Tensor"

/-- Example 2 of the spec: the inplace `add_` overload. -/
def ex2Str : String := "add_.Tensor(Tensor(a!) self, Tensor other, *, Scalar alpha=1) -> Tensor(a!)"

/-- Example 3 of the spec: the out `add.out` overload. -/
def ex3Str : String := "add.out(Tensor self, Tensor other, *, Scalar alpha=1, Tensor(a!) out) -> Tensor(a!)"

/-- A `mul.out` schema whose signature differs from `add`'s. -/
def mulOutStr : String := "mul.out(Tensor self, Tensor other, *, Scalar alpha=1, Tensor(a!) out) -> Tensor(a!)"

/-- A schema that constructs successfully with an inplace-encoding name
and a non-Tensor out argument (zero returns). -/
def c2Str : String := "f_(Tensor(a!)[] self, *, Tensor(b!)[] out) -> ()"

/-- An `arange.start_step` schema whose kwarg-only bucket contains the
tensor-options quad twice by name; the first occurrence is bundled, the
split remainder re-forms a contiguous quad in the printed signature. -/
def cexArangeStr : String := "arange.start_step(*, ScalarType dtype, Layout layout, ScalarType dtype, Layout layout, Device device, bool pin_memory, Device device, bool pin_memory) -> Tensor"

/-- The `a!` annotation. -/
def annExA : Annotation := ⟨["a"], true, ""⟩

/-- The `b!` annotation. -/
def annExB : Annotation := ⟨["b"], true, ""⟩

def argSelfT : Argument := ⟨selfStr, .BaseType .Tensor, none, none⟩

def argSelfTW : Argument := ⟨selfStr, .BaseType .Tensor, none, some annExA⟩

def argOtherT : Argument := ⟨"other", .BaseType .Tensor, none, none⟩

def argAlpha : Argument := ⟨"alpha", .BaseType .Scalar, some ("1"), none⟩

def argOutW : Argument := ⟨"out", .BaseType .Tensor, none, some annExA⟩

def argDtype : Argument := ⟨dtypeStr, .BaseType .ScalarType, none, none⟩

def argLayout : Argument := ⟨layoutStr, .BaseType .Layout, none, none⟩

def argDevice : Argument := ⟨deviceStr, .BaseType .Device, none, none⟩

def argPin : Argument := ⟨pinMemoryStr, .BaseType .bool, none, none⟩

def retT : Return := ⟨none, .BaseType .Tensor, none⟩

def retTW : Return := ⟨none, .BaseType .Tensor, some annExA⟩

/-- Parse result of `ex1Str`. -/
def fsEx1 : FunctionSchema :=
  ⟨⟨⟨"add", false, false⟩, "Tensor"⟩,
   ⟨[], some ⟨argSelfT⟩, [argOtherT], [argAlpha], none, [], []⟩,
   [retT]⟩

/-- Parse result of `ex2Str`. -/
def fsEx2 : FunctionSchema :=
  ⟨⟨⟨"add", true, false⟩, "Tensor"⟩,
   ⟨[], some ⟨argSelfTW⟩, [argOtherT], [argAlpha], none, [], []⟩,
   [retTW]⟩

/-- Parse result of `ex3Str`. -/
def fsEx3 : FunctionSchema :=
  ⟨⟨⟨"add", false, false⟩, "out"⟩,
   ⟨[], some ⟨argSelfT⟩, [argOtherT], [argAlpha], none, [], [argOutW]⟩,
   [retTW]⟩

/-- Parse result of `mulOutStr`. -/
def fsMulOut : FunctionSchema :=
  ⟨⟨⟨"mul", false, false⟩, "out"⟩,
   ⟨[], some ⟨argSelfT⟩, [argOtherT], [argAlpha], none, [], [argOutW]⟩,
   [retTW]⟩

/-- The common `signature()` value of the three `add` variants. -/
def fsAddSig : FunctionSchema :=
  ⟨⟨⟨"add", false, false⟩, ""⟩,
   ⟨[], some ⟨argSelfT⟩, [argOtherT], [argAlpha], none, [], []⟩,
   [retT]⟩

/-- The `signature()` value of `fsMulOut`. -/
def fsMulSig : FunctionSchema :=
  ⟨⟨⟨"mul", false, false⟩, ""⟩,
   ⟨[], some ⟨argSelfT⟩, [argOtherT], [argAlpha], none, [], []⟩,
   [retT]⟩

/-- Parse result of `c2Str`: an inplace-named schema with a non-Tensor
out argument. -/
def fsC2 : FunctionSchema :=
  ⟨⟨⟨"f", true, false⟩, ""⟩,
   ⟨[], some ⟨⟨selfStr, .ListType (.BaseType .Tensor) none, none, some annExA⟩⟩,
    [], [], none, [],
    [⟨"out", .ListType (.BaseType .Tensor) none, none, some annExB⟩]⟩,
   []⟩

/-- Parse result of `cexArangeStr`. -/
def fsArangeX : FunctionSchema :=
  ⟨⟨⟨"arange", false, false⟩, "start_step"⟩,
   ⟨[], none, [], [argDtype, argLayout],
    some ⟨argDtype, argLayout, argDevice, argPin⟩, [argDevice, argPin], []⟩,
   [retT]⟩

/-- `fsArangeX.signature`: the legacy reparse re-forms a tensor-options
bundle. -/
def fsArangeY : FunctionSchema :=
  ⟨⟨⟨"arange", false, false⟩, ""⟩,
   ⟨[], none, [], [], some ⟨argDtype, argLayout, argDevice, argPin⟩, [], []⟩,
   [retT]⟩

/-- `fsArangeY.signature`: the second application drops the bundle. -/
def fsArangeZ : FunctionSchema :=
  ⟨⟨⟨"arange", false, false⟩, ""⟩,
   ⟨[], none, [], [], none, [], []⟩,
   [retT]⟩

/-- Witness values for the grammar round trips. -/
def tyEx : Ty := .OptionalType (.ListType (.BaseType .int) (some 2))

def tyExStr : String := "int[2]?"

def annExStr : String := "a!"

def argExStr : String := "Tensor(a!) self"

def retExStr : String := "Tensor(a!)"

def opEx : OperatorName := ⟨⟨"add", true, false⟩, "Tensor"⟩

def opExStr : String := "add_.Tensor"

/-- `NativeFunction` wrapper around `fsEx1` (nothing structured, no tags). -/
def nfAddFunctional : NativeFunction := ⟨fsEx1, false, none, false, [], []⟩

/-- `NativeFunction` wrapper around `fsEx2`. -/
def nfAddInplace : NativeFunction := ⟨fsEx2, false, none, false, [], []⟩

/-- `NativeFunction` wrapper around `fsEx3`. -/
def nfAddOut : NativeFunction := ⟨fsEx3, false, none, false, [], []⟩

/-- `NativeFunction` wrapper around `fsMulOut`. -/
def nfMulOut : NativeFunction := ⟨fsMulOut, false, none, false, [], []⟩

/-! ## Concrete values used by the witnesses -/

/-- The argument segment of `ex1Str`. -/
def argsEx1Str : String := "Tensor self, Tensor other, *, Scalar alpha=1"

/-- The `_preparse` result on `argsEx1Str`. -/
def preEx1 : PreState := ⟨[argSelfT, argOtherT], [argAlpha], [], AccTag.kwarg_only⟩

/-- A dunder name whose inner name starts with `i` but does not continue
with an augmented-assignment verb. -/
def imagStr : String := "__imag__"

/-- The inner name of `imagStr`. -/
def imagInner : String := "imag"

/-! ## Round-trip guard extraction -/

theorem rtCheck_okT {cs : List Char} {pr : α → List Char} {err : String}
    {x : Except String α} {r : α} (h : rtCheck cs pr err x = .ok r) : pr r = cs := by
  cases x with
  | error e => simp [rtCheck] at h
  | ok a =>
    simp only [rtCheck] at h
    split at h
    · cases h
      assumption
    · simp at h

theorem rtCheckO_okT {cs : List Char} {pr : α → Option (List Char)} {err : String}
    {x : Except String α} {r : α} (h : rtCheckO cs pr err x = .ok r) : pr r = some cs := by
  cases x with
  | error e => simp [rtCheckO] at h
  | ok a =>
    simp only [rtCheckO] at h
    split at h
    · cases h
      assumption
    · simp at h

/-! ## `_preparse` step lemmas -/

theorem argParseL_nil : argParseL [] = .error errArgSplit := rfl

theorem argParseL_star : argParseL ['*'] = .error errArgSplit := rfl

theorem preStep_kwarg_write {st : PreState} {tok : List Char} {a : Argument}
    (htag : st.tag = AccTag.kwarg_only) (hp : argParseL tok = .ok a)
    (hw : a.is_write = true) :
    preStep st tok = .ok { st with tag := AccTag.out, out := st.out ++ [a] } := by
  have h0 : tok ≠ [] := by
    intro hc; rw [hc, argParseL_nil] at hp; cases hp
  have h1 : tok ≠ ['*'] := by
    intro hc; rw [hc, argParseL_star] at hp; cases hp
  cases tok with
  | nil => exact absurd rfl h0
  | cons c cs =>
    simp only [preStep, List.isEmpty_cons, if_neg h1, hp, hw, htag]
    rfl

theorem preStep_positional {st : PreState} {tok : List Char} {a : Argument}
    (htag : st.tag = AccTag.positional) (hp : argParseL tok = .ok a) :
    preStep st tok = .ok { st with positional := st.positional ++ [a] } := by
  have h0 : tok ≠ [] := by
    intro hc; rw [hc, argParseL_nil] at hp; cases hp
  have h1 : tok ≠ ['*'] := by
    intro hc; rw [hc, argParseL_star] at hp; cases hp
  cases tok with
  | nil => exact absurd rfl h0
  | cons c cs =>
    simp only [preStep, List.isEmpty_cons, if_neg h1, hp, htag]
    cases hw : a.is_write <;> simp [hw]

theorem preStep_out_nonwrite {st : PreState} {tok : List Char} {a : Argument}
    (htag : st.tag = AccTag.out) (hp : argParseL tok = .ok a)
    (hw : a.is_write = false) :
    preStep st tok = .error errOutNonMutable := by
  have h0 : tok ≠ [] := by
    intro hc; rw [hc, argParseL_nil] at hp; cases hp
  have h1 : tok ≠ ['*'] := by
    intro hc; rw [hc, argParseL_star] at hp; cases hp
  cases tok with
  | nil => exact absurd rfl h0
  | cons c cs =>
    simp only [preStep, List.isEmpty_cons, if_neg h1, hp, hw, htag]
    rfl

theorem preStep_out_tag {st st' : PreState} {tok : List Char}
    (htag : st.tag = AccTag.out) (h : preStep st tok = .ok st') :
    st'.tag = AccTag.out := by
  unfold preStep at h
  split at h
  · cases h; exact htag
  · split at h
    · rw [htag] at h; simp at h
    · split at h
      · simp at h
      · split at h
        · rw [htag] at h
          simp only [] at h
          cases h
          rfl
        · rw [htag] at h
          simp at h

theorem preGo_out_tag {st st' : PreState} {toks : List (List Char)}
    (htag : st.tag = AccTag.out) (h : preGo st toks = .ok st') :
    st'.tag = AccTag.out := by
  induction toks generalizing st with
  | nil => unfold preGo at h; cases h; exact htag
  | cons t ts ih =>
    unfold preGo at h
    split at h
    · cases h
    · next st1 hstep => exact ih (preStep_out_tag htag hstep) h

/-! ## Tensor-options scan lemmas -/

theorem scanQuad_spec :
    ∀ (l pre : List Argument) (topt : Option TensorOptionsArguments) (post : List Argument),
      scanQuad l = .ok (pre, topt, post) →
      ((topt.isSome = true ↔ anyQuad l = true) ∧ (topt = none → pre = l ∧ post = []))
  | [], pre, topt, post => by
    intro h
    cases h
    simp [anyQuad]
  | [a], pre, topt, post => by
    intro h
    cases h
    simp [anyQuad]
  | [a, b], pre, topt, post => by
    intro h
    cases h
    simp [anyQuad]
  | [a, b, c], pre, topt, post => by
    intro h
    cases h
    simp [anyQuad]
  | a :: b :: c :: d :: rest, pre, topt, post => by
    intro h
    rw [scanQuad] at h
    by_cases hq : quadOk a b c d = true
    · rw [if_pos hq] at h
      by_cases ha : anyQuad rest = true
      · rw [if_pos ha] at h
        cases h
      · rw [if_neg ha] at h
        cases h
        refine ⟨by simp [anyQuad, hq], by intro hc; cases hc⟩
    · rw [if_neg hq] at h
      cases hrec : scanQuad (b :: c :: d :: rest) with
      | error e =>
        rw [hrec] at h
        cases h
      | ok tri =>
        obtain ⟨pre1, topt1, post1⟩ := tri
        rw [hrec] at h
        have ih := scanQuad_spec (b :: c :: d :: rest) pre1 topt1 post1 hrec
        cases h
        constructor
        · rw [ih.1]
          have hqf : quadOk a b c d = false := by
            cases hv : quadOk a b c d
            · rfl
            · exact absurd hv hq
          simp only [anyQuad, hqf, Bool.false_or]
        · intro hn
          obtain ⟨hp, hpo⟩ := ih.2 hn
          exact ⟨by rw [hp], hpo⟩

theorem argumentsParse_topt {cs : List Char} {a : Arguments} {st : PreState}
    (h : Arguments.parseL cs = .ok a) (hst : preparse cs = .ok st) :
    (a.tensor_options.isSome = true ↔ anyQuad st.kwarg_only = true) ∧
    (a.tensor_options = none → a.pre_tensor_options_kwarg_only = st.kwarg_only ∧
      a.post_tensor_options_kwarg_only = []) := by
  simp only [Arguments.parseL, hst] at h
  rcases hsp : splitSelf st.positional with ⟨ps, sf, qs⟩
  simp only [hsp] at h
  cases hq : scanQuad st.kwarg_only with
  | error e =>
    simp only [hq] at h
    cases h
  | ok tri =>
    obtain ⟨preT, topt, postT⟩ := tri
    simp only [hq] at h
    split at h
    · cases h
      have hs := scanQuad_spec st.kwarg_only preT topt postT hq
      exact ⟨hs.1, fun hn => hs.2 hn⟩
    · cases h

/-! ## `signature()` canonicalization lemmas -/

theorem stripArgAnn_idem (a : Argument) :
    stripArgAnn false (stripArgAnn false a) = stripArgAnn false a := rfl

theorem stripArgAnn_write (sd : Bool) (a : Argument) :
    (stripArgAnn sd a).is_write = false := rfl

theorem filter_write_map_strip (sd : Bool) (l : List Argument) :
    (l.map (stripArgAnn sd)).filter (fun x => x.is_write) = [] := by
  induction l with
  | nil => rfl
  | cons a as ih => simp [List.filter, stripArgAnn_write, ih, Argument.is_write, stripArgAnn]

theorem strip_comp : stripArgAnn false ∘ stripArgAnn false = stripArgAnn false :=
  funext fun a => stripArgAnn_idem a

theorem sigCore_args_idem (a : Arguments) :
    (a.sigCore false).sigCore false = a.sigCore false := by
  cases a with
  | mk pre selfa post preT topt postT outl =>
    cases selfa <;>
      simp [Arguments.sigCore, List.map_map, strip_comp, List.map_append, stripArgAnn_idem]

theorem sigCore_args_post_ok {a : Arguments} (h : a.post_ok = true) :
    (a.sigCore false).post_ok = true := by
  simp only [Arguments.post_ok, Bool.and_eq_true] at h ⊢
  obtain ⟨⟨h1, _⟩, h3⟩ := h
  refine ⟨⟨?_, ?_⟩, ?_⟩
  · cases hs : a.self_arg with
    | none =>
      rw [hs] at h1
      simp [Arguments.sigCore, hs]
      simp only [List.isEmpty_iff] at h1
      simp [h1]
    | some sa => simp [Arguments.sigCore, hs]
  · simp [Arguments.sigCore]
  · simp [Arguments.sigCore]
    intro x _
    rfl

theorem containsSub_nil (p : List Char) : containsSub p [] = false := rfl

theorem mem_sigCore_returns {s : FunctionSchema} {r : Return}
    (hr : r ∈ (s.sigCore false false false).returns) : r.name = none ∧ r.ann = none := by
  simp only [FunctionSchema.sigCore] at hr
  cases List.mem_append.1 hr with
  | inl h =>
    obtain ⟨x, _, rfl⟩ := List.mem_map.1 h
    exact ⟨rfl, rfl⟩
  | inr h =>
    simp only [returnsFromMutableInputs, List.mem_map, List.mem_filter] at h
    obtain ⟨x, _, rfl⟩ := h
    exact ⟨rfl, rfl⟩

theorem filter_write_none_ret {l : List Return} (h : ∀ r ∈ l, r.ann = none) :
    l.filter (fun r => r.is_write) = [] := by
  induction l with
  | nil => rfl
  | cons r rs ih =>
    have hr : r.ann = none := h r (by simp)
    have hw : r.is_write = false := by simp [Return.is_write, hr]
    simp only [List.filter, hw]
    exact ih (fun x hx => h x (List.mem_cons_of_mem _ hx))

theorem fsSigCore_post_ok (s : FunctionSchema) :
    (s.sigCore false false false).post_ok = true := by
  have hret : (s.sigCore false false false).returns.filter (fun r => r.is_write) = [] :=
    filter_write_none_ret (fun r hr => (mem_sigCore_returns hr).2)
  simp only [FunctionSchema.post_ok, Bool.and_eq_true]
  refine ⟨⟨⟨⟨⟨⟨⟨?_, ?_⟩, ?_⟩, ?_⟩, ?_⟩, ?_⟩, ?_⟩, ?_⟩
  · simp [FunctionSchema.sigCore, Arguments.sigCore]
  · simp [FunctionSchema.sigCore, Arguments.post_self_positional_mutable,
      Arguments.sigCore, filter_write_map_strip]
  · simp [FunctionSchema.mutable_returns, hret]
  · simp [FunctionSchema.mutable_returns, hret]
  · simp [FunctionSchema.sigCore, Arguments.sigCore]
  · simp [FunctionSchema.sigCore, sigOpName]
  · simp [FunctionSchema.sigCore, Arguments.sigCore]
  · simp [FunctionSchema.is_functional_fn, FunctionSchema.sigCore, sigOpName, containsSub_nil]

theorem filter_write_and {q : Argument → Bool} {l : List Argument}
    (h : ∀ a ∈ l, a.is_write = false) :
    l.filter (fun a => a.is_write && q a) = [] := by
  induction l with
  | nil => rfl
  | cons a as ih =>
    have hw : a.is_write = false := h a (by simp)
    simp only [List.filter, hw, Bool.false_and]
    exact ih (fun x hx => h x (List.mem_cons_of_mem _ hx))

theorem rfmi_sigCore_nil (s : FunctionSchema) :
    returnsFromMutableInputs false (s.sigCore false false false) = [] := by
  unfold returnsFromMutableInputs
  rw [filter_write_and]
  · rfl
  · intro a ha
    simp only [FunctionSchema.sigCore, Arguments.sigCore, List.mem_append] at ha
    rcases ha with (ha | ha) | ha
    · cases hs : s.arguments.self_arg with
      | none => rw [hs] at ha; cases ha
      | some sa =>
        rw [hs] at ha
        simp at ha
        rw [ha]
        rfl
    · cases ha
    · obtain ⟨x, _, rfl⟩ := List.mem_map.1 ha
      rfl

theorem map_stripRet_sigCore (s : FunctionSchema) :
    (s.sigCore false false false).returns.map (stripRetAnn false) =
      (s.sigCore false false false).returns := by
  conv_rhs => rw [← List.map_id ((s.sigCore false false false).returns)]
  apply List.map_congr_left
  intro r hr
  obtain ⟨hn, ha⟩ := mem_sigCore_returns hr
  cases r
  simp only [stripRetAnn] at *
  simp [hn, ha]

theorem fsSigCore_idem (s : FunctionSchema) :
    (s.sigCore false false false).sigCore false false false =
      s.sigCore false false false := by
  have h2 := sigCore_args_idem s.arguments
  have h3 := map_stripRet_sigCore s
  have h4 := rfmi_sigCore_nil s
  show (⟨sigOpName false (s.sigCore false false false),
        (s.arguments.sigCore false).sigCore false,
        (s.sigCore false false false).returns.map (stripRetAnn false) ++
          returnsFromMutableInputs false (s.sigCore false false false)⟩ : FunctionSchema) =
      s.sigCore false false false
  rw [h2, h3, h4, List.append_nil]
  rfl

theorem signature_eq_sigCore {s : FunctionSchema}
    (h1 : opNameStr s.name ≠ arangeStartStep) (h2 : opNameStr s.name ≠ bernoulliP)
    (hargs : (s.arguments.sigCore false).post_ok = true) :
    s.signature = .ok (s.sigCore false false false) := by
  unfold FunctionSchema.signature FunctionSchema.signatureE Arguments.sigE
  simp only [hargs, if_true, if_neg h1, if_neg h2]
  simp [FunctionSchema.sigCore]
  exact fsSigCore_post_ok s

theorem sig_idem_nonlegacy (s : FunctionSchema)
    (hpost : s.arguments.post_ok = true)
    (h1 : opNameStr s.name ≠ arangeStartStep) (h2 : opNameStr s.name ≠ bernoulliP)
    (h3 : opNameStr (sigOpName false s) ≠ arangeStartStep)
    (h4 : opNameStr (sigOpName false s) ≠ bernoulliP) :
    s.signature = .ok (s.sigCore false false false) ∧
      (s.sigCore false false false).signature = .ok (s.sigCore false false false) := by
  have ha := sigCore_args_post_ok hpost
  refine ⟨signature_eq_sigCore h1 h2 ha, ?_⟩
  have ha2 : ((s.sigCore false false false).arguments.sigCore false).post_ok = true := by
    show ((s.arguments.sigCore false).sigCore false).post_ok = true
    rw [sigCore_args_idem]
    exact ha
  have h3' : opNameStr (s.sigCore false false false).name ≠ arangeStartStep := h3
  have h4' : opNameStr (s.sigCore false false false).name ≠ bernoulliP := h4
  rw [signature_eq_sigCore h3' h4' ha2, fsSigCore_idem]

theorem any_write_map_strip (sd : Bool) (l : List Argument) :
    (l.map (stripArgAnn sd)).any (fun a => a.is_write) = false := by
  induction l with
  | nil => rfl
  | cons a as ih => simp only [List.map, List.any_cons, stripArgAnn_write, ih, Bool.false_or]

theorem sigCore_kind (s : FunctionSchema) :
    (s.sigCore false false false).kind = some SchemaKind.functional := by
  simp [FunctionSchema.kind, FunctionSchema.sigCore, Arguments.sigCore, sigOpName,
    any_write_map_strip]
  intro x _
  rfl

theorem sigCore_flat_all_eq (a : Arguments) :
    (a.sigCore false).flat_all =
      (a.pre_self_positional ++
        (match a.self_arg with
         | some sa => [sa.argument]
         | none => []) ++
        a.post_self_positional ++ a.pre_tensor_options_kwarg_only ++
        a.post_tensor_options_kwarg_only).map (stripArgAnn false) := by
  obtain ⟨pre, selfa, post, preT, topt, postT, outl⟩ := a
  cases selfa <;>
    simp [Arguments.sigCore, Arguments.flat_all, Arguments.flat_positional,
      Arguments.flat_kwarg_only, List.map_append]

theorem sigCore_flat_all_ann (a : Arguments) :
    ∀ x ∈ (a.sigCore false).flat_all, x.ann = none := by
  intro x hx
  rw [sigCore_flat_all_eq] at hx
  obtain ⟨y, _, rfl⟩ := List.mem_map.1 hx
  rfl

/-! ## Group lemmas -/

theorem sigMatches_ok {test : FunctionSchema} {f : NativeFunction} {u : Unit}
    (h : sigMatches test f = .ok u) : f.func.signature = .ok test := by
  cases hs : f.func.signature with
  | error e =>
    simp only [sigMatches, hs] at h
    cases h
  | ok s0 =>
    simp only [sigMatches, hs] at h
    split at h
    · next heq => rw [heq]
    · cases h

theorem sigMatchesOpt_ok {test : FunctionSchema} {i : Option NativeFunction} {u : Unit}
    (h : sigMatchesOpt test i = .ok u) :
    ∀ nf, i = some nf → nf.func.signature = .ok test := by
  intro nf hi
  rw [hi] at h
  exact sigMatches_ok h

theorem groupSigOk_members {f o : NativeFunction} {i m : Option NativeFunction}
    {ts : FunctionSchema} (h : groupSigOk f i m o = .ok ts) :
    f.func.signature = .ok ts ∧ o.func.signature = .ok ts ∧
      (∀ nf, i = some nf → nf.func.signature = .ok ts) ∧
      (∀ nf, m = some nf → nf.func.signature = .ok ts) := by
  cases h0 : f.func.signature with
  | error e =>
    simp only [groupSigOk, h0] at h
    cases h
  | ok test =>
    simp only [groupSigOk, h0] at h
    cases h1 : sigMatches test f with
    | error e =>
      simp only [h1] at h
      cases h
    | ok u1 =>
      simp only [h1] at h
      cases h2 : sigMatches test o with
      | error e =>
        simp only [h2] at h
        cases h
      | ok u2 =>
        simp only [h2] at h
        cases h3 : sigMatchesOpt test i with
        | error e =>
          simp only [h3] at h
          cases h
        | ok u3 =>
          simp only [h3] at h
          cases h4 : sigMatchesOpt test m with
          | error e =>
            simp only [h4] at h
            cases h
          | ok u4 =>
            simp only [h4] at h
            cases h
            exact ⟨rfl, sigMatches_ok h2, sigMatchesOpt_ok h3, sigMatchesOpt_ok h4⟩

theorem mk_checked_sigs {f o : NativeFunction} {i m : Option NativeFunction}
    {g : NativeFunctionsGroup} (h : NativeFunctionsGroup.mk_checked f i m o = .ok g) :
    ∃ ts, groupSigOk f i m o = .ok ts := by
  cases hg : groupSigOk f i m o with
  | error e =>
    unfold NativeFunctionsGroup.mk_checked at h
    rw [hg] at h
    cases h
  | ok ts => exact ⟨ts, rfl⟩

theorem mk_checked_mismatch {f o : NativeFunction} {i m : Option NativeFunction}
    {sf so : FunctionSchema}
    (hf : f.func.signature = .ok sf) (ho : o.func.signature = .ok so) (hne : sf ≠ so) :
    NativeFunctionsGroup.mk_checked f i m o = .error errSigMismatch := by
  have hm1 : sigMatches sf f = .ok () := by
    simp only [sigMatches, hf]
    simp
  have hm2 : sigMatches sf o = .error errSigMismatch := by
    simp only [sigMatches, ho]
    rw [if_neg (fun hc : so = sf => hne (Eq.symm hc))]
  have hg : groupSigOk f i m o = .error errSigMismatch := by
    simp only [groupSigOk, hf, hm1, hm2]
  unfold NativeFunctionsGroup.mk_checked
  rw [hg]

/-! ## Dunder-name lemmas -/

theorem dunderInner_shape {op inner : List Char} (hd : dunderInner? op = some inner) :
    ∃ rest midRev, op = '_' :: '_' :: rest ∧ rest.reverse = '_' :: '_' :: midRev ∧
      inner = midRev.reverse := by
  cases op with
  | nil => cases hd
  | cons c1 t1 =>
    cases t1 with
    | nil => cases hd
    | cons c2 rest =>
      unfold dunderInner? at hd
      simp only [] at hd
      by_cases hc : c1 = '_' ∧ c2 = '_'
      · rw [if_pos hc] at hd
        obtain ⟨hc1, hc2⟩ := hc
        subst hc1
        subst hc2
        cases hr : rest.reverse with
        | nil =>
          simp only [hr] at hd
          cases hd
        | cons d1 t2 =>
          cases t2 with
          | nil =>
            simp only [hr] at hd
            cases hd
          | cons d2 midRev =>
            simp only [hr] at hd
            by_cases hdd : d1 = '_' ∧ d2 = '_'
            · rw [if_pos hdd] at hd
              obtain ⟨hd1, hd2⟩ := hdd
              subst hd1
              subst hd2
              by_cases hemp : (midRev.reverse.isEmpty = true ∨ midRev.reverse.contains '_' = true)
              · rw [if_pos hemp] at hd
                cases hd
              · rw [if_neg hemp] at hd
                cases hd
                exact ⟨rest, midRev, rfl, hr, rfl⟩
            · rw [if_neg hdd] at hd
              cases hd
      · rw [if_neg hc] at hd
        cases hd

theorem dunder_i_reject {op inner : List Char}
    (hd : dunderInner? op = some inner) (hi : inner.head? = some 'i')
    (hn : AUGMENTED_ASSIGNMENT_NAMES.any (fun n => inner == 'i' :: n.data) = false) :
    baseOpParseL op = .error errDunderI := by
  obtain ⟨rest, midRev, hop, hrev, hinner⟩ := dunderInner_shape hd
  have hne : op.isEmpty = false := by rw [hop]; rfl
  have hout : endsL outSuffix op = false := by
    have hrv : op.reverse = '_' :: '_' :: (midRev ++ ['_', '_']) := by
      rw [hop]
      simp [List.reverse_cons, hrev]
    rw [endsL, hrv]
    rfl
  unfold baseOpParseL
  rw [hne, hout, hd]
  simp only [Bool.false_eq_true, if_false, hn, hi, if_true]
  rfl

/-! ## The claims -/

/-- Claim C1: for every string accepted by `Ty.parse`, `Annotation.parse`,
`Argument.parse`, `Return.parse`, `OperatorName.parse` or
`FunctionSchema.parse`, printing the parsed value reproduces the input
exactly. -/
theorem claim_C1 :
    (∀ (s : String) (r : Ty), Ty.parse s = .ok r → typeStr r = s) ∧
    (∀ (s : String) (r : Annotation), Annotation.parse s = .ok r → annStr r = s) ∧
    (∀ (s : String) (r : Argument), Argument.parse s = .ok r → argStr r = some s) ∧
    (∀ (s : String) (r : Return), Return.parse s = .ok r → retStr r = some s) ∧
    (∀ (s : String) (r : OperatorName), OperatorName.parse s = .ok r → opNameStr r = s) ∧
    (∀ (s : String) (r : FunctionSchema), FunctionSchema.parse s = .ok r →
      fsStr r = some s) := by
  refine ⟨?_, ?_, ?_, ?_, ?_, ?_⟩
  · intro s r h
    unfold Ty.parse typeParseTop at h
    cases hn : 2 * s.data.length + 4 with
    | zero => rw [hn] at h; simp [typeParseF] at h
    | succ n =>
      rw [hn] at h
      unfold typeParseF at h
      have := rtCheck_okT h
      simp [typeStr, this]
  · intro s r h
    unfold Annotation.parse annParseL at h
    have := rtCheck_okT h
    simp [annStr, this]
  · intro s r h
    unfold Argument.parse argParseL at h
    have := rtCheckO_okT h
    simp [argStr, this]
  · intro s r h
    unfold Return.parse retParseL at h
    have := rtCheckO_okT h
    simp [retStr, this]
  · intro s r h
    unfold OperatorName.parse opNameParseL at h
    have := rtCheck_okT h
    simp [opNameStr, this]
  · intro s r h
    unfold FunctionSchema.parse at h
    have := rtCheckO_okT h
    simp [fsStr, this]

/-- Witness for C1: concrete round trips through each of the six
grammars. -/
theorem claim_C1_witness :
    typeStr tyEx = tyExStr ∧ annStr annExA = annExStr ∧
    argStr argSelfTW = some argExStr ∧ retStr retTW = some retExStr ∧
    opNameStr opEx = opExStr ∧ fsStr fsEx1 = some ex1Str :=
  ⟨claim_C1.1 tyExStr tyEx rfl, claim_C1.2.1 annExStr annExA rfl,
   claim_C1.2.2.1 argExStr argSelfTW rfl, claim_C1.2.2.2.1 retExStr retTW rfl,
   claim_C1.2.2.2.2.1 opExStr opEx rfl, claim_C1.2.2.2.2.2 ex1Str fsEx1 rfl⟩

/-- Claim C2 (amended): for every valid `FunctionSchema` that is not
simultaneously inplace-named with out-arguments (on such a schema `kind()`
fails its exclusivity assertion instead of returning `out`), `kind()`
follows the stated precedence: out-arguments present gives `out`, an
inplace name with no out-arguments gives `inplace`, a write-annotated
post-self positional argument gives `mutable`, otherwise `functional`. -/
theorem claim_C2 (s : FunctionSchema) (_hpost : s.post_ok = true)
    (hni : ¬(s.name.name.inplace = true ∧ s.arguments.out ≠ [])) :
    (s.arguments.out ≠ [] → s.kind = some SchemaKind.out) ∧
    (s.name.name.inplace = true → s.arguments.out = [] →
      s.kind = some SchemaKind.inplace) ∧
    (s.name.name.inplace = false → s.arguments.out = [] →
      s.arguments.post_self_positional.any (fun a => a.is_write) = true →
      s.kind = some SchemaKind.mutable) ∧
    (s.name.name.inplace = false → s.arguments.out = [] →
      s.arguments.post_self_positional.any (fun a => a.is_write) = false →
      s.kind = some SchemaKind.functional) := by
  refine ⟨?_, ?_, ?_, ?_⟩
  · intro hout
    have hinp : s.name.name.inplace = false := by
      by_contra hc
      exact hni ⟨by simpa using hc, hout⟩
    cases hO : s.arguments.out with
    | nil => exact absurd hO hout
    | cons x xs => simp [FunctionSchema.kind, hinp, hO]
  · intro hinp hout
    simp [FunctionSchema.kind, hinp, hout]
  · intro hinp hout hmut
    simp [FunctionSchema.kind, hinp, hout, hmut]
  · intro hinp hout hmut
    simp [FunctionSchema.kind, hinp, hout, hmut]

/-- Witness for C2: the `add.out` schema classifies as `out`. -/
theorem claim_C2_witness : fsEx3.kind = some SchemaKind.out :=
  (claim_C2 fsEx3 (by decide) (by decide)).1 (by decide)

/-- Counterexample for C2 as stated: `c2Str` parses (both `__post_init__`
checks pass, since self and out have non-Tensor list types), its name is
inplace and it has an out-argument, yet `kind()` hits the
`assert not (is_out and is_inplace)` and returns no kind rather than
`out`. -/
theorem claim_C2_cex :
    FunctionSchema.parse c2Str = .ok fsC2 ∧ fsC2.post_ok = true ∧
    fsC2.name.name.inplace = true ∧ fsC2.arguments.out ≠ [] ∧ fsC2.kind = none := by
  refine ⟨rfl, rfl, rfl, ?_, rfl⟩
  decide

/-- Claim C3 (amended): `signature()` is idempotent for every valid schema
whose printed operator name is neither of the two legacy fixed strings
`arange.start_step` and `bernoulli.p` (on those the string-level reparse
can change the result, see the counterexample); and all members of a
successfully constructed `NativeFunctionsGroup` — the functional, inplace,
mutable and out variants of one logical operator — have equal
`signature()` values. -/
theorem claim_C3 :
    (∀ s : FunctionSchema, s.arguments.post_ok = true →
      opNameStr s.name ≠ arangeStartStep → opNameStr s.name ≠ bernoulliP →
      opNameStr (sigOpName false s) ≠ arangeStartStep →
      opNameStr (sigOpName false s) ≠ bernoulliP →
      s.signature = .ok (s.sigCore false false false) ∧
        (s.sigCore false false false).signature = .ok (s.sigCore false false false)) ∧
    (∀ (f o : NativeFunction) (i m : Option NativeFunction) (g : NativeFunctionsGroup),
      NativeFunctionsGroup.mk_checked f i m o = .ok g →
      ∃ ts, f.func.signature = .ok ts ∧ o.func.signature = .ok ts ∧
        (∀ nf, i = some nf → nf.func.signature = .ok ts) ∧
        (∀ nf, m = some nf → nf.func.signature = .ok ts)) := by
  constructor
  · intro s hpost h1 h2 h3 h4
    exact sig_idem_nonlegacy s hpost h1 h2 h3 h4
  · intro f o i m g h
    obtain ⟨ts, hg⟩ := mk_checked_sigs h
    exact ⟨ts, groupSigOk_members hg⟩

/-- Witness for C3: applying `signature()` to the inplace `add_.Tensor`
schema and once more to the result returns the same canonical schema. -/
theorem claim_C3_witness :
    fsEx2.signature = .ok (fsEx2.sigCore false false false) ∧
    (fsEx2.sigCore false false false).signature = .ok (fsEx2.sigCore false false false) :=
  claim_C3.1 fsEx2 (by decide) (by decide) (by decide) (by decide) (by decide)

/-- Counterexample for C3 as stated: the duplicate-quad
`arange.start_step` schema parses, its `signature()` re-forms a
tensor-options bundle through the legacy string reparse, and a second
`signature()` drops that bundle, so
`signature(signature(x))` differs from `signature(x)`. -/
theorem claim_C3_cex :
    FunctionSchema.parse cexArangeStr = .ok fsArangeX ∧
    fsArangeX.signature = .ok fsArangeY ∧
    fsArangeY.signature = .ok fsArangeZ ∧
    fsArangeY ≠ fsArangeZ := by
  refine ⟨rfl, rfl, rfl, ?_⟩
  decide

/-- Claim C4: in the `_preparse` loop, a write-annotated argument seen
while the accumulator is the kwarg-only bucket switches the accumulator to
the out bucket; a parsed argument seen while the accumulator is positional
always stays positional (mutable or not); an argument without a write
annotation seen while the accumulator is the out bucket is a fatal error;
and once the accumulator is the out bucket it stays the out bucket for the
rest of the loop. -/
theorem claim_C4 :
    (∀ (st : PreState) (tok : List Char) (a : Argument),
      st.tag = AccTag.kwarg_only → argParseL tok = .ok a → a.is_write = true →
      preStep st tok = .ok { st with tag := AccTag.out, out := st.out ++ [a] }) ∧
    (∀ (st : PreState) (tok : List Char) (a : Argument),
      st.tag = AccTag.positional → argParseL tok = .ok a →
      preStep st tok = .ok { st with positional := st.positional ++ [a] }) ∧
    (∀ (st : PreState) (tok : List Char) (a : Argument),
      st.tag = AccTag.out → argParseL tok = .ok a → a.is_write = false →
      preStep st tok = .error errOutNonMutable) ∧
    (∀ (st st' : PreState) (toks : List (List Char)),
      st.tag = AccTag.out → preGo st toks = .ok st' → st'.tag = AccTag.out) :=
  ⟨fun _ _ _ h1 h2 h3 => preStep_kwarg_write h1 h2 h3,
   fun _ _ _ h1 h2 => preStep_positional h1 h2,
   fun _ _ _ h1 h2 h3 => preStep_out_nonwrite h1 h2 h3,
   fun _ _ _ h1 h2 => preGo_out_tag h1 h2⟩

/-- Witness for C4: feeding the write-annotated argument
`Tensor(a!) self` to a state whose accumulator is the kwarg-only bucket
moves it to the out bucket and switches the accumulator. -/
theorem claim_C4_witness :
    preStep ⟨[], [], [], AccTag.kwarg_only⟩ argExStr.data =
      .ok ⟨[], [], [argSelfTW], AccTag.out⟩ :=
  claim_C4.1 ⟨[], [], [], AccTag.kwarg_only⟩ argExStr.data argSelfTW rfl rfl rfl

/-- Claim C5: for every parsed `Arguments` value, the tensor-options
bundle is present exactly when some window of four consecutive kwarg-only
arguments (as pre-split by `_preparse`) matches the fixed
dtype/layout/device/pin_memory name-and-type quad in that order; when no
window matches, the bundle is absent and every kwarg-only argument is
routed to the plain pre-options kwarg-only bucket. -/
theorem claim_C5 (cs : List Char) (a : Arguments) (st : PreState)
    (h : Arguments.parseL cs = .ok a) (hst : preparse cs = .ok st) :
    (a.tensor_options.isSome = true ↔ anyQuad st.kwarg_only = true) ∧
    (a.tensor_options = none → a.pre_tensor_options_kwarg_only = st.kwarg_only ∧
      a.post_tensor_options_kwarg_only = []) :=
  argumentsParse_topt h hst

/-- Witness for C5: the argument list of `add.Tensor` has no matching
quad, so its parse has no bundle and `alpha` stays in the plain
kwarg-only bucket. -/
theorem claim_C5_witness :
    (fsEx1.arguments.tensor_options.isSome = true ↔ anyQuad preEx1.kwarg_only = true) ∧
    (fsEx1.arguments.tensor_options = none →
      fsEx1.arguments.pre_tensor_options_kwarg_only = preEx1.kwarg_only ∧
      fsEx1.arguments.post_tensor_options_kwarg_only = []) :=
  claim_C5 argsEx1Str.data fsEx1.arguments preEx1 rfl rfl

/-- Claim C6: every valid `FunctionSchema` with at least one out-argument
has zero returns when some out-argument has a non-Tensor type, and
otherwise exactly as many returns as out-arguments. -/
theorem claim_C6 (s : FunctionSchema) (hpost : s.post_ok = true)
    (hout : s.arguments.out ≠ []) :
    (s.arguments.out.any (fun a => !(a.ty == Ty.BaseType BaseTy.Tensor)) = true →
      s.returns = []) ∧
    (s.arguments.out.any (fun a => !(a.ty == Ty.BaseType BaseTy.Tensor)) = false →
      s.returns.length = s.arguments.out.length) := by
  simp only [FunctionSchema.post_ok, Bool.and_eq_true] at hpost
  obtain ⟨⟨⟨⟨_, h5⟩, _⟩, _⟩, _⟩ := hpost
  have hne : s.arguments.out.isEmpty = false := by
    cases ho : s.arguments.out with
    | nil => exact absurd ho hout
    | cons x xs => rfl
  rw [hne] at h5
  simp only [Bool.false_eq_true, if_false] at h5
  constructor
  · intro hany
    rw [hany] at h5
    simp only [if_true] at h5
    simpa [List.isEmpty_iff] using h5
  · intro hany
    rw [hany] at h5
    simp only [Bool.false_eq_true, if_false] at h5
    simpa using h5

/-- Witness for C6: `add.out` has one Tensor out-argument and one
return. -/
theorem claim_C6_witness : fsEx3.returns.length = fsEx3.arguments.out.length :=
  (claim_C6 fsEx3 (by decide) (by decide)).2 (by decide)

/-- Claim C7: every valid `FunctionSchema` whose operator name encodes
inplace has a write-annotated `self` argument, and has exactly one return
carrying the annotation of `self` when the type of `self` is bare
`Tensor`, and zero returns otherwise. -/
theorem claim_C7 (s : FunctionSchema) (hpost : s.post_ok = true)
    (hinp : s.name.name.inplace = true) :
    ∃ sa, s.arguments.self_arg = some sa ∧ sa.argument.is_write = true ∧
      (sa.argument.ty = Ty.BaseType BaseTy.Tensor →
        ∃ r, s.returns = [r] ∧ r.ann = sa.argument.ann) ∧
      (sa.argument.ty ≠ Ty.BaseType BaseTy.Tensor → s.returns = []) := by
  simp only [FunctionSchema.post_ok, Bool.and_eq_true] at hpost
  obtain ⟨⟨⟨_, h6⟩, _⟩, _⟩ := hpost
  rw [hinp] at h6
  simp only [if_true] at h6
  cases hs : s.arguments.self_arg with
  | none => rw [hs] at h6; cases h6
  | some sa =>
    rw [hs] at h6
    simp only [Bool.and_eq_true] at h6
    obtain ⟨hw, hrest⟩ := h6
    refine ⟨sa, rfl, hw, ?_, ?_⟩
    · intro hty
      have : (sa.argument.ty == Ty.BaseType BaseTy.Tensor) = true := by
        simp [hty]
      rw [this] at hrest
      simp only [if_true] at hrest
      cases hr : s.returns with
      | nil => rw [hr] at hrest; cases hrest
      | cons r rs =>
        cases rs with
        | nil =>
          rw [hr] at hrest
          refine ⟨r, rfl, ?_⟩
          simpa using hrest
        | cons r2 rs2 => rw [hr] at hrest; cases hrest
    · intro hty
      have : (sa.argument.ty == Ty.BaseType BaseTy.Tensor) = false := by
        simp [hty]
      rw [this] at hrest
      simp only [Bool.false_eq_true, if_false] at hrest
      simpa [List.isEmpty_iff] using hrest

/-- Witness for C7: `add_.Tensor` has the write-annotated `self` and a
single aliased return. -/
theorem claim_C7_witness :
    ∃ sa, fsEx2.arguments.self_arg = some sa ∧ sa.argument.is_write = true ∧
      (sa.argument.ty = Ty.BaseType BaseTy.Tensor →
        ∃ r, fsEx2.returns = [r] ∧ r.ann = sa.argument.ann) ∧
      (sa.argument.ty ≠ Ty.BaseType BaseTy.Tensor → fsEx2.returns = []) :=
  claim_C7 fsEx2 (by decide) rfl

/-- Claim C8: constructing a `NativeFunctionsGroup` from a functional and
an out member whose `signature()` values differ always fails with the
signature-mismatch error, whatever the optional inplace and mutable
members are. -/
theorem claim_C8 (f o : NativeFunction) (i m : Option NativeFunction)
    (sf so : FunctionSchema) (hf : f.func.signature = .ok sf)
    (ho : o.func.signature = .ok so) (hne : sf ≠ so) :
    NativeFunctionsGroup.mk_checked f i m o = .error errSigMismatch :=
  mk_checked_mismatch hf ho hne

/-- Witness for C8: pairing the functional `add.Tensor` with the out
variant of `mul` fails the group constructor. -/
theorem claim_C8_witness :
    NativeFunctionsGroup.mk_checked nfAddFunctional none none nfMulOut =
      .error errSigMismatch :=
  claim_C8 nfAddFunctional nfMulOut none none fsAddSig fsMulSig rfl rfl (by decide)

/-- Claim C9 (amended): for every valid `FunctionSchema` whose printed
operator name is neither legacy fixed string (on `arange.start_step` the
reparse can reinstate a tensor-options bundle, see the counterexample),
the `signature()` output has an empty out bucket, no tensor-options
bundle, an empty overload name, a cleared inplace flag, no annotations on
any argument or return, and classifies as `functional`. -/
theorem claim_C9 (s sc : FunctionSchema)
    (hpost : s.arguments.post_ok = true)
    (h1 : opNameStr s.name ≠ arangeStartStep) (h2 : opNameStr s.name ≠ bernoulliP)
    (hs : s.signature = .ok sc) :
    sc.arguments.out = [] ∧ sc.arguments.tensor_options = none ∧
    sc.name.overload_name = "" ∧ sc.name.name.inplace = false ∧
    sc.arguments.flat_all.all (fun a => a.ann.isNone) = true ∧
    sc.returns.all (fun r => r.ann.isNone) = true ∧
    sc.kind = some SchemaKind.functional := by
  have hsig := signature_eq_sigCore h1 h2 (sigCore_args_post_ok hpost)
  have heq : Except.ok (ε := String) sc = .ok (s.sigCore false false false) :=
    hs.symm.trans hsig
  have hsc : sc = s.sigCore false false false := by
    injection heq
  subst hsc
  refine ⟨rfl, rfl, rfl, rfl, ?_, ?_, sigCore_kind s⟩
  · rw [List.all_eq_true]
    intro x hx
    show x.ann.isNone = true
    rw [sigCore_flat_all_ann s.arguments x hx]
    rfl
  · rw [List.all_eq_true]
    intro r hr
    show r.ann.isNone = true
    rw [(mem_sigCore_returns hr).2]
    rfl

/-- Witness for C9: the `signature()` of `add.out` is the clean
functional `add` schema. -/
theorem claim_C9_witness :
    fsAddSig.arguments.out = [] ∧ fsAddSig.arguments.tensor_options = none ∧
    fsAddSig.name.overload_name = "" ∧ fsAddSig.name.name.inplace = false ∧
    fsAddSig.arguments.flat_all.all (fun a => a.ann.isNone) = true ∧
    fsAddSig.returns.all (fun r => r.ann.isNone) = true ∧
    fsAddSig.kind = some SchemaKind.functional :=
  claim_C9 fsEx3 fsAddSig (by decide) (by decide) (by decide) rfl

/-- Counterexample for C9 as stated: the `signature()` of the
duplicate-quad `arange.start_step` schema carries a tensor-options
bundle, because the legacy string reparse re-groups the canonicalized
kwarg-only arguments. -/
theorem claim_C9_cex :
    FunctionSchema.parse cexArangeStr = .ok fsArangeX ∧
    fsArangeX.signature = .ok fsArangeY ∧
    fsArangeY.arguments.tensor_options = some ⟨argDtype, argLayout, argDevice, argPin⟩ :=
  ⟨rfl, rfl, rfl⟩

/-- Claim C10: `BaseOperatorName.parse` rejects every dunder-form name
whose inner name begins with `i` but is not `i` followed by one of the
eleven augmented-assignment verb names. -/
theorem claim_C10 (s : String) (inner : List Char)
    (hd : dunderInner? s.data = some inner) (hi : inner.head? = some 'i')
    (hn : AUGMENTED_ASSIGNMENT_NAMES.any (fun n => inner == 'i' :: n.data) = false) :
    BaseOperatorName.parse s = .error errDunderI :=
  dunder_i_reject hd hi hn

/-- Witness for C10: `__imag__` fits the dunder grammar yet fails to
parse. -/
theorem claim_C10_witness : BaseOperatorName.parse imagStr = .error errDunderI :=
  claim_C10 imagStr imagInner.data rfl rfl (by decide)
